import Mathlib

/-!
Verification development for the edna2 Dozor control layer
(edna2/tasks/ControlDozor.py and edna2/tasks/ControlIndexing.py).

The development shallowly embeds the algorithmic core of those files:

* the batch partitioning algorithm ControlDozor.createListOfBatches,
* the back-computed starting angle of ExecDozor.generateCommands and the
  per-image angle formula of ExecDozor.parseOutput,
* the Dozor log decoder ExecDozor.parseOutput together with
  ExecDozor.parseDouble,
* the mtv plot-file parser embedded in ExecDozor.generatePngPlots,
* the per-batch aggregation loop of ControlDozor.run, and
* the dispatch/join loop of ControlIndexing.runControlDozor.

Python strings are modelled as lists of characters so that every string
operation is structurally recursive and hence computable by the kernel.
Python floats are modelled as exact scaled decimals (an integer mantissa
together with a power-of-ten exponent); the angle arithmetic, which the
claims treat algebraically, is modelled over the rationals.
Python exceptions are modelled with Option: a function returns none
exactly when the corresponding Python code raises.
-/

/-- A Python string, modelled as its list of characters. -/
abbrev Str := List Char

/-- The space character. -/
def spaceChar : Char := Char.ofNat 32

/-- The horizontal tab character. -/
def tabChar : Char := Char.ofNat 9

/-- The line-feed character. -/
def lfChar : Char := Char.ofNat 10

/-- The carriage-return character. -/
def crChar : Char := Char.ofNat 13

/-- The single-quote character. -/
def squoteChar : Char := Char.ofNat 39

/-- The double-quote character. -/
def dquoteChar : Char := Char.ofNat 34

/-- Convert a Lean string literal to the character-list model. -/
def strL (s : String) : Str := s.toList

/-- Whitespace test used by Python str.split and str.strip. -/
def isWsChar (c : Char) : Bool :=
  c == spaceChar || c == tabChar || c == lfChar || c == crChar

/-- Python str.strip: remove leading and trailing whitespace. -/
def stripWs (s : Str) : Str :=
  ((s.dropWhile isWsChar).reverse.dropWhile isWsChar).reverse

/-- Python str.isdigit restricted to ASCII: nonempty and all digits. -/
def isDigits (s : Str) : Bool :=
  !s.isEmpty && s.all Char.isDigit

/-- Numeric value of a digit string (most significant digit first). -/
def natOfDigits (s : Str) : ℕ :=
  s.foldl (fun acc c => 10 * acc + (c.toNat - 48)) 0

/-- Python int(str): optional sign followed by a nonempty digit string,
surrounding whitespace allowed; none models a raised ValueError. -/
def pyInt (s : Str) : Option ℤ :=
  match stripWs s with
  | [] => none
  | c :: rest =>
    if c = '-' then
      if isDigits rest then some (-(natOfDigits rest : ℤ)) else none
    else if c = '+' then
      if isDigits rest then some (natOfDigits rest : ℤ) else none
    else if isDigits (c :: rest) then some (natOfDigits (c :: rest) : ℤ)
    else none

/-- An exact decimal number: the value is num * 10 ^ exp.  This models a
finite decimal literal accepted by Python float(). -/
structure Dec where
  num : ℤ
  exp : ℤ
deriving DecidableEq, Repr

/-- Rational value of an exact decimal. -/
def Dec.toRat (d : Dec) : ℚ := (d.num : ℚ) * (10 : ℚ) ^ d.exp

/-- Mantissa of a float literal: digits with an optional fractional part.
Returns the integer mantissa, the decimal exponent contributed by the
fractional part, and the unconsumed remainder of the string. -/
def pyFloatMant (s : Str) : Option (ℤ × ℤ × Str) :=
  let ip := s.takeWhile Char.isDigit
  let r1 := s.dropWhile Char.isDigit
  match r1 with
  | c :: rest =>
    if c = '.' then
      let fp := rest.takeWhile Char.isDigit
      let r2 := rest.dropWhile Char.isDigit
      if ip.isEmpty && fp.isEmpty then none
      else some ((natOfDigits (ip ++ fp) : ℤ), -(fp.length : ℤ), r2)
    else if ip.isEmpty then none
    else some ((natOfDigits ip : ℤ), 0, r1)
  | [] => if ip.isEmpty then none else some ((natOfDigits ip : ℤ), 0, [])

/-- Exponent part of a float literal, after the letter e: an optional
sign followed by a nonempty digit string consuming the whole rest. -/
def pyFloatExp (s : Str) : Option ℤ :=
  match s with
  | [] => none
  | c :: rest =>
    if c = '-' then
      if isDigits rest then some (-(natOfDigits rest : ℤ)) else none
    else if c = '+' then
      if isDigits rest then some (natOfDigits rest : ℤ) else none
    else if isDigits s then some (natOfDigits s : ℤ)
    else none

/-- Unsigned float literal: mantissa with an optional exponent part. -/
def pyFloatUnsigned (s : Str) : Option Dec :=
  match pyFloatMant s with
  | none => none
  | some (m, e, rest) =>
    match rest with
    | [] => some ⟨m, e⟩
    | c :: rest2 =>
      if c = 'e' ∨ c = 'E' then
        match pyFloatExp rest2 with
        | none => none
        | some e2 => some ⟨m, e + e2⟩
      else none

/-- Python float(str) on finite decimal literals: optional sign, digits
with optional fractional part and optional exponent, surrounding
whitespace allowed.  none models a raised ValueError (non-finite
literals such as inf and nan are outside the model). -/
def pyFloat (s : Str) : Option Dec :=
  match stripWs s with
  | [] => none
  | c :: rest =>
    if c = '-' then (pyFloatUnsigned rest).map (fun d => ⟨-d.num, d.exp⟩)
    else if c = '+' then pyFloatUnsigned rest
    else pyFloatUnsigned (c :: rest)

/-- ExecDozor.parseDouble: parse a float, catching the exception; a parse
failure yields none (the Python method logs and returns None). -/
def parseDouble (s : Str) : Option Dec := pyFloat s

/-- Python str.startswith with a one-character prefix. -/
def startsWithChar (c : Char) : Str → Bool
  | [] => false
  | d :: _ => d == c

/-- Python str.split(sep) with a one-character separator: splits on every
occurrence, keeping empty segments. -/
def splitOnChar (sep : Char) : Str → List Str
  | [] => [[]]
  | c :: rest =>
    let r := splitOnChar sep rest
    if c = sep then [] :: r
    else
      match r with
      | [] => [[c]]
      | h :: t => (c :: h) :: t

/-- Worker for whitespace splitting, accumulating the current word. -/
def wsSplitGo : Str → Str → List Str → List Str
  | [], cur, acc => if cur.isEmpty then acc else acc ++ [cur]
  | c :: rest, cur, acc =>
    if isWsChar c then
      if cur.isEmpty then wsSplitGo rest [] acc
      else wsSplitGo rest [] (acc ++ [cur])
    else wsSplitGo rest (cur ++ [c]) acc

/-- Python str.split() with no argument: split on whitespace runs,
dropping empty segments. -/
def wsSplit (s : Str) : List Str := wsSplitGo s [] []

/-- Lexer modes of the shlex-style tokenizer. -/
inductive LexMode where
  | out
  | word
  | single
  | double
deriving DecidableEq, Repr

/-- Worker for the shlex-style tokenizer: whitespace-separated words with
single- and double-quote grouping; none models the ValueError shlex
raises on an unbalanced quote.  Backslash escapes, which never occur in
Dozor logs, are outside the model. -/
def shlexGo : Str → LexMode → Str → List Str → Option (List Str)
  | [], .out, _, acc => some acc
  | [], .word, cur, acc => some (acc ++ [cur])
  | [], .single, _, _ => none
  | [], .double, _, _ => none
  | c :: rest, .out, _, acc =>
    if isWsChar c then shlexGo rest .out [] acc
    else if c == squoteChar then shlexGo rest .single [] acc
    else if c == dquoteChar then shlexGo rest .double [] acc
    else shlexGo rest .word [c] acc
  | c :: rest, .word, cur, acc =>
    if isWsChar c then shlexGo rest .out [] (acc ++ [cur])
    else if c == squoteChar then shlexGo rest .single cur acc
    else if c == dquoteChar then shlexGo rest .double cur acc
    else shlexGo rest .word (cur ++ [c]) acc
  | c :: rest, .single, cur, acc =>
    if c == squoteChar then shlexGo rest .word cur acc
    else shlexGo rest .single (cur ++ [c]) acc
  | c :: rest, .double, cur, acc =>
    if c == dquoteChar then shlexGo rest .word cur acc
    else shlexGo rest .double (cur ++ [c]) acc

/-- shlex.split of a line as used by ExecDozor.parseOutput. -/
def shlexSplitModel (s : Str) : Option (List Str) := shlexGo s .out [] []

/-- Tokenization of one log line in ExecDozor.parseOutput: pipe characters
are replaced by spaces, then the line is shlex-split. -/
def tokenizeLine (line : Str) : Option (List Str) :=
  shlexSplitModel (line.map (fun c => if c = '|' then spaceChar else c))

/-!
### Batch partitioning: ControlDozor.createListOfBatches
-/

/-- Loop state of ControlDozor.createListOfBatches: the completed batches,
the batch under construction, the running count within it, and the
expected next image number (None between batches). -/
structure BatchState where
  listAllBatches : List (List ℕ)
  listImagesInBatch : List ℕ
  indexBatch : ℕ
  indexNextImageInBatch : Option ℕ
deriving DecidableEq, Repr

/-- One iteration of the createListOfBatches loop body over the sorted
image numbers. -/
def processImage (batchSize : ℕ) (st : BatchState) (imageNo : ℕ) : BatchState :=
  match st.indexNextImageInBatch with
  | none =>
    let st1 : BatchState :=
      { st with
        indexBatch := 1
        indexNextImageInBatch := some (imageNo + 1)
        listImagesInBatch := st.listImagesInBatch ++ [imageNo] }
    if batchSize = 1 then
      { st1 with
        listAllBatches := st1.listAllBatches ++ [st1.listImagesInBatch]
        listImagesInBatch := []
        indexNextImageInBatch := none }
    else st1
  | some nxt =>
    if imageNo ≠ nxt ∨ st.indexBatch = batchSize then
      { listAllBatches := st.listAllBatches ++ [st.listImagesInBatch]
        listImagesInBatch := [imageNo]
        indexBatch := 1
        indexNextImageInBatch := some (imageNo + 1) }
    else
      { st with
        listImagesInBatch := st.listImagesInBatch ++ [imageNo]
        indexNextImageInBatch := some (nxt + 1)
        indexBatch := st.indexBatch + 1 }

/-- After the createListOfBatches loop: append the final in-progress
batch when it is nonempty. -/
def finalizeBatches (final : BatchState) : List (List ℕ) :=
  if final.listImagesInBatch = [] then final.listAllBatches
  else final.listAllBatches ++ [final.listImagesInBatch]

/-- The overlap re-splitting at the end of createListOfBatches: when
overlap is set, every image of every batch becomes its own singleton
batch; otherwise the batches are returned unchanged. -/
def overlapSplit (all : List (List ℕ)) (overlap : Bool) : List (List ℕ) :=
  if overlap then all.flatten.map (fun n => [n]) else all

/-- createListOfBatches after sorting: fold the loop body over the sorted
image numbers, append the final in-progress batch if nonempty, and in
overlap mode re-split every batch into singletons. -/
def createListOfBatchesSorted (sortedImages : List ℕ) (batchSize : ℕ)
    (overlap : Bool) : List (List ℕ) :=
  overlapSplit
    (finalizeBatches (sortedImages.foldl (processImage batchSize) ⟨[], [], 0, none⟩))
    overlap

/-- ControlDozor.createListOfBatches: sort the image numbers ascending
(the input is the key set of an image dictionary) and group them into
contiguous batches of at most batchSize images. -/
def createListOfBatches (listImage : List ℕ) (batchSize : ℕ)
    (overlap : Bool) : List (List ℕ) :=
  createListOfBatchesSorted (listImage.insertionSort (· ≤ ·)) batchSize overlap

/-!
### Angle formulas: ExecDozor.generateCommands and ExecDozor.parseOutput
-/

/-- The back-computed overall starting angle written by
ExecDozor.generateCommands into the command file:
startingAngle - (firstImageNumber - 1) * oscillationRange. -/
def overallStartingAngle (startingAngle oscillationRange : ℚ)
    (firstImageNumber : ℤ) : ℚ :=
  startingAngle - ((firstImageNumber - 1 : ℤ) : ℚ) * oscillationRange

/-- The per-image rotation angle computed by ExecDozor.parseOutput:
startingAngle + (imageNumber - firstImageNumber) * (oscillationRange -
overlap) + oscillationRange / 2. -/
def dozorAngleFormula (startingAngle oscillationRange overlap : ℚ)
    (firstImageNumber imageNumber : ℤ) : ℚ :=
  startingAngle
    + ((imageNumber - firstImageNumber : ℤ) : ℚ) * (oscillationRange - overlap)
    + oscillationRange / 2

/-!
### Log decoding: ExecDozor.parseOutput
-/

/-- The fields of ExecDozor.run's input that parseOutput reads for one
result row.  overlap is optional and defaults to 0. -/
structure DozorInData where
  startingAngle : ℚ
  oscillationRange : ℚ
  firstImageNumber : ℤ
  overlap : Option ℚ
deriving DecidableEq

/-- One per-image record built by ExecDozor.parseOutput.  Keys that the
Python dict leaves absent, or sets to None, are modelled as none; note
the source uses the key spotsRFactor in the short layout and the key
spotsRfactor in the extended layout (two distinct keys). -/
structure ImageDozor where
  number : ℕ
  angle : ℚ
  spotsNumOf : Option ℤ
  spotsIntAver : Option Dec
  spotsRFactor : Option Dec
  spotsRfactor : Option Dec
  spotsResolution : Option Dec
  powderWilsonScale : Option Dec
  powderWilsonBfactor : Option Dec
  powderWilsonResolution : Option Dec
  powderWilsonCorrelation : Option Dec
  powderWilsonRfactor : Option Dec
  mainScore : Option Dec
  spotScore : Option Dec
  visibleResolution : Option Dec
deriving DecidableEq

/-- The record as initialized for a qualifying row before the field
assignments: number and angle set, numeric fields None, and the
visibleResolution sentinel 40. -/
def initImageDozor (inp : DozorInData) (imageNumber : ℕ) : ImageDozor :=
  { number := imageNumber
    angle := dozorAngleFormula inp.startingAngle inp.oscillationRange
      (inp.overlap.getD 0) inp.firstImageNumber (imageNumber : ℤ)
    spotsNumOf := none
    spotsIntAver := none
    spotsRFactor := none
    spotsRfactor := none
    spotsResolution := none
    powderWilsonScale := none
    powderWilsonBfactor := none
    powderWilsonResolution := none
    powderWilsonCorrelation := none
    powderWilsonRfactor := none
    mainScore := none
    spotScore := none
    visibleResolution := some ⟨40, 0⟩ }

/-- The short-layout field assignments of parseOutput, with the source's
sequential exception semantics: a missing token (IndexError) or a failing
int conversion (ValueError) stops the sequence, keeping the fields
assigned so far; parseDouble failures yield none and continue. -/
def applyShort (ts : List Str) (r0 : ImageDozor) : ImageDozor :=
  match ts.get? 1 with
  | none => r0
  | some t1 =>
    match pyInt t1 with
    | none => r0
    | some n =>
      let r1 := { r0 with spotsNumOf := some n }
      match ts.get? 2 with
      | none => r1
      | some t2 =>
        let r2 := { r1 with spotsIntAver := parseDouble t2 }
        match ts.get? 3 with
        | none => r2
        | some t3 =>
          let r3 := { r2 with spotsRFactor := parseDouble t3 }
          match ts.get? 4 with
          | none => r3
          | some t4 =>
            let r4 := { r3 with spotsResolution := parseDouble t4 }
            match ts.get? 8 with
            | none => r4
            | some t8 =>
              let r5 := { r4 with mainScore := parseDouble t8 }
              match ts.get? 9 with
              | none => r5
              | some t9 =>
                let r6 := { r5 with spotScore := parseDouble t9 }
                match ts.get? 10 with
                | none => r6
                | some t10 => { r6 with visibleResolution := parseDouble t10 }

/-- The extended-layout field assignments of parseOutput, with the same
sequential exception semantics as the short layout. -/
def applyExt (ts : List Str) (r0 : ImageDozor) : ImageDozor :=
  match ts.get? 1 with
  | none => r0
  | some t1 =>
    match pyInt t1 with
    | none => r0
    | some n =>
      let r1 := { r0 with spotsNumOf := some n }
      match ts.get? 2 with
      | none => r1
      | some t2 =>
        let r2 := { r1 with spotsIntAver := parseDouble t2 }
        match ts.get? 3 with
        | none => r2
        | some t3 =>
          let r3 := { r2 with spotsRfactor := parseDouble t3 }
          match ts.get? 4 with
          | none => r3
          | some t4 =>
            let r4 := { r3 with spotsResolution := parseDouble t4 }
            match ts.get? 5 with
            | none => r4
            | some t5 =>
              let r5 := { r4 with powderWilsonScale := parseDouble t5 }
              match ts.get? 6 with
              | none => r5
              | some t6 =>
                let r6 := { r5 with powderWilsonBfactor := parseDouble t6 }
                match ts.get? 7 with
                | none => r6
                | some t7 =>
                  let r7 := { r6 with powderWilsonResolution := parseDouble t7 }
                  match ts.get? 8 with
                  | none => r7
                  | some t8 =>
                    let r8 := { r7 with powderWilsonCorrelation := parseDouble t8 }
                    match ts.get? 9 with
                    | none => r8
                    | some t9 =>
                      let r9 := { r8 with powderWilsonRfactor := parseDouble t9 }
                      match ts.get? 10 with
                      | none => r9
                      | some t10 =>
                        let r10 := { r9 with mainScore := parseDouble t10 }
                        match ts.get? 11 with
                        | none => r10
                        | some t11 =>
                          let r11 := { r10 with spotScore := parseDouble t11 }
                          match ts.get? 12 with
                          | none => r11
                          | some t12 => { r11 with visibleResolution := parseDouble t12 }

/-- The try-block of parseOutput for one qualifying row: inspect token 5
(IndexError there leaves every field at its initial value) and dispatch
on the layout condition. -/
def parseRowFields (ts : List Str) (r0 : ImageDozor) : ImageDozor :=
  match ts.get? 5 with
  | none => r0
  | some t5 =>
    if startsWithChar '-' t5 = true ∨ ts.length < 11 then applyShort ts r0
    else applyExt ts r0

/-- A tokenized line qualifies as a result row when its first token is a
nonempty digit string. -/
def rowQualifies (ts : List Str) : Bool :=
  match ts.head? with
  | some t0 => isDigits t0
  | none => false

/-- Accumulated output of parseOutput: the record list and the optional
half-dose time (kept as the raw token, as in the source). -/
structure DozorResult where
  imageDozor : List ImageDozor
  halfDoseTime : Option Str
deriving DecidableEq

/-- The record contributed by a single log line, if any: tokenization
failure contributes nothing here (it is handled in processLine), a
qualifying row contributes its parsed record, and any other line
contributes nothing. -/
def lineRecord (inp : DozorInData) (line : Str) : Option ImageDozor :=
  match tokenizeLine line with
  | none => none
  | some ts =>
    if rowQualifies ts = true then
      some (parseRowFields ts (initImageDozor inp (natOfDigits (ts.headD []))))
    else none

/-- One iteration of the parseOutput line loop: tokenize (a shlex error
raises), append the record of a qualifying row, otherwise handle a line
beginning with h as halfDoseTime = value (raising when the line has no
equals sign or nothing after it), and ignore anything else. -/
def processLine (inp : DozorInData) (st : DozorResult) (line : Str) :
    Option DozorResult :=
  match tokenizeLine line with
  | none => none
  | some ts =>
    if rowQualifies ts = true then
      some { st with
        imageDozor := st.imageDozor ++
          [parseRowFields ts (initImageDozor inp (natOfDigits (ts.headD [])))] }
    else if startsWithChar 'h' line = true then
      match (splitOnChar '=' line).get? 1 with
      | none => none
      | some seg =>
        match (wsSplit seg).head? with
        | none => none
        | some v => some { st with halfDoseTime := some v }
    else some st

/-- The parseOutput line loop over the remaining lines. -/
def processLines (inp : DozorInData) : List Str → DozorResult → Option DozorResult
  | [], st => some st
  | l :: rest, st =>
    match processLine inp st l with
    | none => none
    | some st2 => processLines inp rest st2

/-- ExecDozor.parseOutput restricted to its log-decoding core: split the
captured output on newlines, skip the six banner lines, and fold the
line loop from the empty result.  none models an escaped exception. -/
def parseOutputModel (inp : DozorInData) (output : Str) : Option DozorResult :=
  processLines inp ((splitOnChar lfChar output).drop 6) ⟨[], none⟩

/-- Decidable well-formedness of a half-dose-time line: it has a segment
after the first equals sign, with at least one whitespace-delimited
token in it. -/
def wellFormedHalfLine (line : Str) : Bool :=
  match (splitOnChar '=' line).get? 1 with
  | none => false
  | some seg => !(wsSplit seg).isEmpty

/-!
### Plot-file parsing: the mtv parser inside ExecDozor.generatePngPlots
-/

/-- One subplot of an mtv plot: name, attribute assignments, and the two
data sequences. -/
structure SubPlot where
  name : Str
  attrs : List (Str × Str)
  xValues : List Dec
  yValues : List Dec
deriving DecidableEq, Repr

/-- One plot block of an mtv file: name, attribute assignments, and its
subplots. -/
structure PlotBlock where
  name : Str
  attrs : List (Str × Str)
  plotList : List SubPlot
deriving DecidableEq, Repr

/-- Parser state of the mtv loop: the plots built so far, subplots created
before any plot block (appended to the initial orphan list, exactly as
the source appends them to a list never attached to a plot), and the
location of the most recently created subplot (none before the first
subplot; some none in the orphan list; some (some i) as last subplot of
plot i). -/
structure MtvState where
  listPlots : List PlotBlock
  orphanSubs : List SubPlot
  curLoc : Option (Option ℕ)
deriving DecidableEq, Repr

/-- Replace the last element of a list, if any. -/
def updateLast (f : α → α) : List α → List α
  | [] => []
  | [a] => [f a]
  | a :: b :: rest => a :: updateLast f (b :: rest)

/-- Replace the element at an index of a list, if present. -/
def modifyIdx (f : α → α) : ℕ → List α → List α
  | _, [] => []
  | 0, a :: rest => f a :: rest
  | n + 1, a :: rest => a :: modifyIdx f n rest

/-- Parse one attribute line: label = value, where the label drops the
leading marker character and is stripped, and the value is the segment
after the first equals sign, unquoted when it contains a quote, with
newlines removed and stripped.  none models the IndexError raised when
the line has no equals sign. -/
def attrOfLine (line : Str) : Option (Str × Str) :=
  match (splitOnChar '=' line).get? 1 with
  | none => none
  | some seg1 =>
    let label := stripWs (((splitOnChar '=' line).headD []).drop 1)
    let value :=
      if seg1.contains squoteChar then (splitOnChar squoteChar seg1).getD 1 []
      else seg1
    some (label, stripWs (value.filter (fun c => c ≠ lfChar)))

/-- Consume the run of attribute lines beginning with the percent marker.
Running off the end of the file models the IndexError the source's
unguarded while condition raises there. -/
def parseAttrsGo : List Str → List (Str × Str) →
    Option (List (Str × Str) × List Str)
  | [], _ => none
  | line :: rest, acc =>
    if startsWithChar '%' line = true then
      match attrOfLine line with
      | none => none
      | some kv => parseAttrsGo rest (acc ++ [kv])
    else some (acc, line :: rest)

/-- The quoted name on the line following a dollar line: the text between
the first pair of single quotes; none models the IndexError when the
line has no quote. -/
def quotedName (line : Str) : Option Str :=
  (splitOnChar squoteChar line).get? 1

/-- The subplot name on a hash line: the text after the first hash, with
newlines removed and stripped. -/
def subplotName (line : Str) : Str :=
  stripWs (((splitOnChar '#' line).getD 1 []).filter (fun c => c ≠ lfChar))

/-- Append a freshly created subplot where the source's aliased list
variable points: to the last plot when one exists, otherwise to the
orphan list, recording its location as current. -/
def mtvAddSub (st : MtvState) (sub : SubPlot) : MtvState :=
  if st.listPlots.isEmpty then
    { st with orphanSubs := st.orphanSubs ++ [sub], curLoc := some none }
  else
    { st with
      listPlots := updateLast
        (fun p => { p with plotList := p.plotList ++ [sub] }) st.listPlots
      curLoc := some (some (st.listPlots.length - 1)) }

/-- Append a data point to the most recently created subplot; none models
the KeyError raised when no subplot has been created yet. -/
def mtvAddData (st : MtvState) (x y : Dec) : Option MtvState :=
  let addPoint : SubPlot → SubPlot := fun s =>
    { s with xValues := s.xValues ++ [x], yValues := s.yValues ++ [y] }
  match st.curLoc with
  | none => none
  | some none =>
    some { st with orphanSubs := updateLast addPoint st.orphanSubs }
  | some (some i) =>
    let updPlot : PlotBlock → PlotBlock := fun p =>
      { p with plotList := updateLast addPoint p.plotList }
    some { st with listPlots := modifyIdx updPlot i st.listPlots }

/-- The mtv parsing loop of generatePngPlots: dollar starts a plot block
whose next line carries the quoted name, hash starts a subplot, percent
runs are attributes, and any other line is a data row whose first two
whitespace tokens are parsed as floats.  The fuel argument only bounds
the recursion; each step consumes at least one line, so a fuel of one
more than the number of lines never runs out. -/
def mtvGo : ℕ → List Str → MtvState → Option MtvState
  | 0, _, _ => none
  | _ + 1, [], st => some st
  | fuel + 1, line :: rest, st =>
    if startsWithChar '$' line = true then
      match rest with
      | [] => none
      | nameLine :: rest2 =>
        match quotedName nameLine with
        | none => none
        | some nm =>
          match parseAttrsGo rest2 [] with
          | none => none
          | some (attrs, rest3) =>
            mtvGo fuel rest3
              { st with listPlots := st.listPlots ++ [⟨nm, attrs, []⟩] }
    else if startsWithChar '#' line = true then
      match parseAttrsGo rest [] with
      | none => none
      | some (attrs, rest2) =>
        mtvGo fuel rest2 (mtvAddSub st ⟨subplotName line, attrs, [], []⟩)
    else
      let listData := wsSplit (line.filter (fun c => c ≠ lfChar))
      match listData.get? 0, listData.get? 1 with
      | some a, some b =>
        match pyFloat a, pyFloat b with
        | some x, some y =>
          match mtvAddData st x y with
          | none => none
          | some st2 => mtvGo fuel rest st2
        | _, _ => none
      | _, _ => none

/-- The plot-dictionary construction of ExecDozor.generatePngPlots: run
the mtv loop over the file's lines and return the list of plot blocks;
none models an escaped exception. -/
def generatePngPlotsParse (lines : List Str) : Option (List PlotBlock) :=
  match mtvGo (lines.length + 1) lines ⟨[], [], none⟩ with
  | none => none
  | some st => some st.listPlots

/-!
### Batch aggregation: the loop of ControlDozor.run
-/

/-- One aggregated imageQualityIndicators entry, as built from an
imageDozor record by the loop in ControlDozor.run. -/
structure QualityIndicators where
  angle : ℚ
  number : ℕ
  dozorScore : Option Dec
  dozorSpotScore : Option Dec
  dozorSpotsNumOf : Option ℤ
  dozorSpotsIntAver : Option Dec
  dozorSpotsResolution : Option Dec
  dozorVisibleResolution : Option Dec
deriving DecidableEq

/-- The projection from an imageDozor record to its aggregated
imageQualityIndicators entry (ControlDozor.run, loop body). -/
def toQualityIndicators (d : ImageDozor) : QualityIndicators :=
  { angle := d.angle
    number := d.number
    dozorScore := d.mainScore
    dozorSpotScore := d.spotScore
    dozorSpotsNumOf := d.spotsNumOf
    dozorSpotsIntAver := d.spotsIntAver
    dozorSpotsResolution := d.spotsResolution
    dozorVisibleResolution := d.visibleResolution }

/-- The batch loop of ControlDozor.run, with the per-batch execution
abstracted as a function from a batch to its optional output.  Modelled
from the spec: the external execution (ExecDozor.execute and
AbstractTask.isFailure, not under src) reports per-batch success or
failure; runDozorTask returns None for a failed batch, and the loop
appends nothing for it and continues. -/
def controlDozorRunLoop (exec : List ℕ → Option (List ImageDozor))
    (batches : List (List ℕ)) : List QualityIndicators :=
  batches.foldl
    (fun acc b =>
      match exec b with
      | none => acc
      | some recs => acc ++ recs.map toQualityIndicators) []

/-!
### Concurrent dispatch: ControlIndexing.runControlDozor
-/

/-- Modelled from the spec: one completion event of a dispatched worker
thread writes that unit's final outcome into a shared store
(AbstractTask.start and AbstractTask.join are not under src; the spec
describes OS-thread units whose results become visible at completion,
in an arbitrary completion order). -/
def threadWrite (outc : ℕ → Option α) (store : ℕ → Option (Option α))
    (i : ℕ) : ℕ → Option (Option α) :=
  fun j => if j = i then some (outc i) else store j

/-- Modelled from the spec: run all dispatched units to completion in the
order given by the completion schedule, starting from a store with no
unit completed. -/
def runThreadsSchedule (outc : ℕ → Option α) (events : List ℕ) :
    ℕ → Option (Option α) :=
  events.foldl (threadWrite outc) (fun _ => none)

/-- The join-and-aggregate loop of ControlIndexing.runControlDozor: walk
the units in submission order, join each one (a unit with no recorded
completion would block, modelled as none), and append the outputs of
successful units in that order. -/
def joinAndGather (store : ℕ → Option (Option α)) :
    List ℕ → List α → Option (List α)
  | [], acc => some acc
  | i :: rest, acc =>
    match store i with
    | none => none
    | some none => joinAndGather store rest acc
    | some (some d) => joinAndGather store rest (acc ++ [d])

/-- ControlIndexing.runControlDozor over the thread model: dispatch units
0..n-1, let them complete in the order given by events, then join all of
them in submission order and aggregate the successful outputs. -/
def runControlDozorModel (outc : ℕ → Option α) (events : List ℕ) (n : ℕ) :
    Option (List α) :=
  joinAndGather (runThreadsSchedule outc events) (List.range n) []

/-!
### Invariants and concrete inputs used by the theorems below
-/

/-- A well-formed non-overlap batch: nonempty, contiguous (each element
is its predecessor plus one) and no longer than batchSize. -/
def goodBatch (batchSize : ℕ) (b : List ℕ) : Prop :=
  b ≠ [] ∧ List.Chain' (fun a c => c = a + 1) b ∧ b.length ≤ batchSize

/-- Invariant on the batch under construction: when no next image is
expected the current batch is empty; otherwise it is a nonempty
contiguous run of length indexBatch, at most batchSize long, whose last
element is the predecessor of the expected next image. -/
def BatchCurInv (batchSize : ℕ) (st : BatchState) : Prop :=
  match st.indexNextImageInBatch with
  | none => st.listImagesInBatch = []
  | some e =>
    st.listImagesInBatch ≠ [] ∧
    List.Chain' (fun a c => c = a + 1) st.listImagesInBatch ∧
    st.listImagesInBatch.length = st.indexBatch ∧
    st.indexBatch ≤ batchSize ∧
    ∃ lastv, st.listImagesInBatch.getLast? = some lastv ∧ e = lastv + 1

/-- Loop invariant of createListOfBatches: every completed batch is
well-formed and the batch under construction satisfies BatchCurInv. -/
def BatchInv (batchSize : ℕ) (st : BatchState) : Prop :=
  (∀ b ∈ st.listAllBatches, goodBatch batchSize b) ∧ BatchCurInv batchSize st

/-- A fixed input record for concrete decoder runs: startingAngle 0,
oscillationRange 1, firstImageNumber 1, overlap absent. -/
def inpEx : DozorInData := ⟨0, 1, 1, none⟩

/-- A synthetic short-layout result row with 10 tokens whose token 5
starts with a minus sign. -/
def row10ex : List Str :=
  [strL "3", strL "12", strL "55.2", strL "-2.3", strL "8.1", strL "-1.0",
   strL "7", strL "8", strL "0.85", strL "0.42"]

/-- A synthetic extended-layout result row with 13 tokens whose token 5
does not start with a minus sign. -/
def row13ex : List Str :=
  [strL "5", strL "7", strL "1.5", strL "2.5", strL "3.5", strL "4.5",
   strL "5.5", strL "6.5", strL "7.5", strL "8.5", strL "9.5", strL "10.5",
   strL "11.5"]

/-- A synthetic 11-token short-layout row whose integer spot-count token
is unparseable while every parseDouble token, in particular token 2,
parses. -/
def tsBadC6 : List Str :=
  [strL "1", strL "x", strL "2.0", strL "3.0", strL "4.0", strL "-5.0",
   strL "a", strL "b", strL "8.0", strL "9.0", strL "10.0"]

/-- A synthetic 11-token short-layout row whose integer spot-count token
parses and in which exactly one parseDouble token, the x at position 2,
is unparseable. -/
def tsTolEx : List Str :=
  [strL "1", strL "12", strL "x", strL "3.0", strL "4.0", strL "-5.0",
   strL "a", strL "b", strL "8.0", strL "9.0", strL "10.0"]

/-- A synthetic 13-token extended-layout row whose integer spot-count
token parses and in which exactly one parseDouble token, the x at
position 6, is unparseable. -/
def tsTolExtEx : List Str :=
  [strL "2", strL "9", strL "1.5", strL "2.5", strL "3.5", strL "4.5",
   strL "x", strL "6.5", strL "7.5", strL "8.5", strL "9.5", strL "10.5",
   strL "11.5"]

/-- A concrete malformed Dozor log: six banner lines followed by a line
consisting of the single letter h (no equals sign). -/
def badLogEx : Str := strL "\n\n\n\n\n\nh"

/-- A concrete well-formed Dozor log: six banner lines, one result row,
one half-dose-time line and one ignored line. -/
def goodLogEx : Str :=
  strL "l1\nl2\nl3\nl4\nl5\nl6\n1 2 3.0 4.0 5.0 -6.0 7 8 9.0 10.0 11.0\nh = 5.0 s\nnoise"

/-- The lines of the concrete mtv plot file of the plot-parser claim: one
dollar block named Plot1 with one subplot Series A carrying a linelabel
attribute and two data rows. -/
def mtvLinesEx : List Str :=
  [strL "$ DATA=CURVE2D",
   squoteChar :: (strL "Plot1" ++ [squoteChar]),
   strL "# Series A",
   strL "% linelabel = " ++ [squoteChar, 'A', squoteChar],
   strL "1.0 2.0",
   strL "2.0 3.0"]

/-- Concrete per-image records of the first batch in the partial-failure
scenario. -/
def recsEx1 : List ImageDozor := [initImageDozor inpEx 1, initImageDozor inpEx 2]

/-- Concrete per-image records of the third batch in the partial-failure
scenario. -/
def recsEx3 : List ImageDozor := [initImageDozor inpEx 5]

/-- A concrete execution outcome: the middle batch fails, the other two
succeed. -/
def execEx : List ℕ → Option (List ImageDozor) := fun b =>
  if b = [3, 4] then none
  else if b = [1, 2] then some recsEx1
  else some recsEx3

/-- A concrete per-unit outcome for the concurrency model: unit 1 fails,
the others return ten times their index. -/
def outcEx : ℕ → Option ℕ := fun i => if i = 1 then none else some (10 * i)

/-!
## Theorems

### C1, C2, C3: batch partitioning
-/

theorem flatten_map_singleton (xs : List ℕ) :
    (xs.map (fun n => [n])).flatten = xs := by
  induction xs with
  | nil => rfl
  | cons a t ih => simp [ih]

theorem processImage_flatten (batchSize : ℕ) (st : BatchState) (imageNo : ℕ) :
    (processImage batchSize st imageNo).listAllBatches.flatten
        ++ (processImage batchSize st imageNo).listImagesInBatch
      = st.listAllBatches.flatten ++ st.listImagesInBatch ++ [imageNo] := by
  unfold processImage
  repeat' split
  all_goals simp

theorem foldl_processImage_flatten (batchSize : ℕ) (l : List ℕ) (st : BatchState) :
    (l.foldl (processImage batchSize) st).listAllBatches.flatten
        ++ (l.foldl (processImage batchSize) st).listImagesInBatch
      = st.listAllBatches.flatten ++ st.listImagesInBatch ++ l := by
  induction l generalizing st with
  | nil => simp
  | cons a t ih =>
    rw [List.foldl_cons, ih, processImage_flatten]
    simp

theorem finalizeBatches_flatten (st : BatchState) :
    (finalizeBatches st).flatten
      = st.listAllBatches.flatten ++ st.listImagesInBatch := by
  unfold finalizeBatches
  split <;> simp [*]

theorem overlapSplit_flatten (all : List (List ℕ)) (ov : Bool) :
    (overlapSplit all ov).flatten = all.flatten := by
  unfold overlapSplit
  split
  · exact flatten_map_singleton all.flatten
  · rfl

theorem createListOfBatches_flatten (listImage : List ℕ) (batchSize : ℕ)
    (ov : Bool) :
    (createListOfBatches listImage batchSize ov).flatten
      = listImage.insertionSort (· ≤ ·) := by
  unfold createListOfBatches createListOfBatchesSorted
  rw [overlapSplit_flatten, finalizeBatches_flatten, foldl_processImage_flatten]
  simp

/-- C1: for every finite set of positive image numbers (a duplicate-free
list) and every batchSize at least 1, and for either value of the
overlap flag, the multiset union of the batches returned by
createListOfBatches is exactly the input set, each element appearing in
exactly one batch exactly once. -/
theorem createListOfBatches_partition_exact (listImage : List ℕ)
    (batchSize : ℕ) (hnd : listImage.Nodup) (hb : 1 ≤ batchSize)
    (hpos : ∀ n ∈ listImage, 0 < n) (overlap : Bool) :
    ((createListOfBatches listImage batchSize overlap).flatten : Multiset ℕ)
      = (listImage : Multiset ℕ) := by
  rw [createListOfBatches_flatten]
  exact Multiset.coe_eq_coe.mpr (List.perm_insertionSort _ _)

/-- C1 witness: the partition property evaluated on the set {5, 1, 2, 3}
with batch size 2. -/
theorem createListOfBatches_partition_exact_witness :
    ((createListOfBatches [5, 1, 2, 3] 2 false).flatten : Multiset ℕ)
      = ([5, 1, 2, 3] : Multiset ℕ) :=
  createListOfBatches_partition_exact [5, 1, 2, 3] 2 (by decide) (by decide)
    (by decide) false

theorem processImage_inv (batchSize : ℕ) (hb : 1 ≤ batchSize)
    (st : BatchState) (imageNo : ℕ) (h : BatchInv batchSize st) :
    BatchInv batchSize (processImage batchSize st imageNo) := by
  obtain ⟨hall, hcur⟩ := h
  unfold BatchCurInv at hcur
  unfold BatchInv BatchCurInv processImage
  cases hnext : st.indexNextImageInBatch with
  | none =>
    rw [hnext] at hcur
    simp only []
    split
    · refine ⟨?_, rfl⟩
      intro b hbmem
      rcases List.mem_append.mp hbmem with hbold | hbnew
      · exact hall b hbold
      · rw [List.mem_singleton.mp hbnew, hcur]
        exact ⟨by simp, by simp, by simpa using hb⟩
    · refine ⟨hall, ?_, ?_, ?_, hb, imageNo, ?_, rfl⟩
      · simp [hcur]
      · simp [hcur]
      · simp [hcur]
      · simp [hcur]
  | some nxt =>
    rw [hnext] at hcur
    obtain ⟨hne, hchain, hlen, hle, lastv, hlast, helast⟩ := hcur
    simp only []
    split
    · refine ⟨?_, ?_, ?_, ?_, hb, imageNo, ?_, rfl⟩
      · intro b hbmem
        rcases List.mem_append.mp hbmem with hbold | hbnew
        · exact hall b hbold
        · rw [List.mem_singleton.mp hbnew]
          exact ⟨hne, hchain, hlen ▸ hle⟩
      · simp
      · simp
      · simp
      · simp
    · rename_i hcond
      push_neg at hcond
      obtain ⟨himeq, hidx⟩ := hcond
      refine ⟨hall, ?_, ?_, ?_, ?_, imageNo, ?_, by omega⟩
      · simp
      · rw [List.chain'_append]
        refine ⟨hchain, by simp, ?_⟩
        intro x hx y hy
        rw [hlast] at hx
        simp only [Option.mem_def, Option.some.injEq] at hx
        simp only [List.head?_cons, Option.mem_def, Option.some.injEq] at hy
        subst hx
        subst hy
        omega
      · simp [hlen]
      · exact Nat.succ_le_of_lt (Nat.lt_of_le_of_ne hle hidx)
      · exact List.getLast?_concat _

theorem foldl_processImage_inv (batchSize : ℕ) (hb : 1 ≤ batchSize)
    (l : List ℕ) (st : BatchState) (h : BatchInv batchSize st) :
    BatchInv batchSize (l.foldl (processImage batchSize) st) := by
  induction l generalizing st with
  | nil => exact h
  | cons a t ih =>
    rw [List.foldl_cons]
    exact ih _ (processImage_inv batchSize hb st a h)

theorem finalizeBatches_good (batchSize : ℕ) (st : BatchState)
    (h : BatchInv batchSize st) :
    ∀ b ∈ finalizeBatches st, goodBatch batchSize b := by
  obtain ⟨hall, hcur⟩ := h
  unfold BatchCurInv at hcur
  intro b hbmem
  unfold finalizeBatches at hbmem
  split at hbmem
  · exact hall b hbmem
  · rcases List.mem_append.mp hbmem with hbold | hbnew
    · exact hall b hbold
    · rw [List.mem_singleton.mp hbnew]
      rename_i hne
      cases hnext : st.indexNextImageInBatch with
      | none => rw [hnext] at hcur; exact absurd hcur hne
      | some e =>
        rw [hnext] at hcur
        obtain ⟨hne2, hchain, hlen, hle, _, _, _⟩ := hcur
        exact ⟨hne2, hchain, hlen ▸ hle⟩

/-- C2: for every finite set of positive image numbers and every
batchSize at least 1, with overlap mode off, every batch returned by
createListOfBatches is a contiguous run (consecutive elements differ by
exactly one) and no batch is longer than batchSize. -/
theorem createListOfBatches_contiguous_capped (listImage : List ℕ)
    (batchSize : ℕ) (hnd : listImage.Nodup) (hb : 1 ≤ batchSize)
    (hpos : ∀ n ∈ listImage, 0 < n) :
    ∀ b ∈ createListOfBatches listImage batchSize false,
      List.Chain' (fun a c => c = a + 1) b ∧ b.length ≤ batchSize := by
  intro b hbmem
  unfold createListOfBatches createListOfBatchesSorted overlapSplit at hbmem
  simp only [if_neg Bool.false_ne_true] at hbmem
  have hinv : BatchInv batchSize
      ((listImage.insertionSort (· ≤ ·)).foldl (processImage batchSize)
        ⟨[], [], 0, none⟩) := by
    apply foldl_processImage_inv batchSize hb
    exact ⟨by simp, by unfold BatchCurInv; simp⟩
  have hg := finalizeBatches_good batchSize _ hinv b hbmem
  exact ⟨hg.2.1, hg.2.2⟩

/-- C2 witness: contiguity and the size cap evaluated on the batch [1, 2]
produced from the set {5, 1, 2, 3} with batch size 2. -/
theorem createListOfBatches_contiguous_capped_witness :
    List.Chain' (fun a c => c = a + 1) [1, 2] ∧ List.length [1, 2] ≤ 2 :=
  createListOfBatches_contiguous_capped [5, 1, 2, 3] 2 (by decide) (by decide)
    (by decide) [1, 2] (by decide)

/-- C3: for every finite set of positive image numbers and every
batchSize at least 1, with the overlap argument true, every returned
batch has length exactly one, and the set of the singleton elements is
exactly the input set. -/
theorem createListOfBatches_overlap_singletons (listImage : List ℕ)
    (batchSize : ℕ) (hnd : listImage.Nodup) (hb : 1 ≤ batchSize)
    (hpos : ∀ n ∈ listImage, 0 < n) :
    (∀ b ∈ createListOfBatches listImage batchSize true, b.length = 1) ∧
    (∀ n, n ∈ (createListOfBatches listImage batchSize true).flatten ↔
      n ∈ listImage) := by
  constructor
  · intro b hbmem
    unfold createListOfBatches createListOfBatchesSorted overlapSplit at hbmem
    simp only [if_pos rfl] at hbmem
    obtain ⟨n, _, hbn⟩ := List.mem_map.mp hbmem
    rw [← hbn]
    rfl
  · intro n
    rw [createListOfBatches_flatten]
    exact (List.perm_insertionSort _ _).mem_iff

/-- C3 witness: the singleton law evaluated on the set {5, 1, 2, 3} with
batch size 2, at the batch [3] and the element 3. -/
theorem createListOfBatches_overlap_singletons_witness :
    List.length [3] = 1 ∧
      (3 ∈ (createListOfBatches [5, 1, 2, 3] 2 true).flatten ↔ 3 ∈ [5, 1, 2, 3]) :=
  ⟨(createListOfBatches_overlap_singletons [5, 1, 2, 3] 2 (by decide) (by decide)
      (by decide)).1 [3] (by decide),
    (createListOfBatches_overlap_singletons [5, 1, 2, 3] 2 (by decide) (by decide)
      (by decide)).2 3⟩

/-!
### C4: angle recovery round-trip
-/

/-- C4 counterexample: with startingAngle 0, oscillationRange 1 and
firstImageNumber 1, the back-computed starting angle re-applied through
the per-image angle formula at imageNumber = firstImageNumber yields
1/2, not the original startingAngle 0: the claimed round-trip is off by
oscillationRange / 2. -/
theorem angle_roundtrip_cex :
    dozorAngleFormula (overallStartingAngle 0 1 1) 1 0 1 1 ≠ 0 := by
  unfold dozorAngleFormula overallStartingAngle
  norm_num

/-- C4 amended: the back-computed starting angle of generateCommands,
re-applied through parseOutput's per-image angle formula (overlap 0,
formula firstImageNumber 1) at imageNumber = firstImageNumber, yields
the original per-batch startingAngle plus oscillationRange / 2 — the
formula's half-oscillation centering term — for every startingAngle,
oscillationRange and firstImageNumber. -/
theorem angle_roundtrip_amended (startingAngle oscillationRange : ℚ)
    (firstImageNumber : ℤ) :
    dozorAngleFormula
        (overallStartingAngle startingAngle oscillationRange firstImageNumber)
        oscillationRange 0 1 firstImageNumber
      = startingAngle + oscillationRange / 2 := by
  unfold dozorAngleFormula overallStartingAngle
  push_cast
  ring

/-!
### C5: column-layout selection in parseOutput
-/

/-- C5: for a qualifying result row, the layout is selected solely from
token 5 and the token count: when token 5 starts with a minus sign or
the row has fewer than 11 tokens the short-layout assignments run (and
these never touch the powder-Wilson fields), otherwise the
extended-layout assignments run.  In particular, the concrete 10-token
row with a dashed token 5 populates the short-layout fields (spot count,
average intensity, R-factor, resolution, main score from position 8,
spot score from position 9, visible resolution left at its sentinel 40
because the 10-token row has no position 10) and no powder-Wilson
fields, while the concrete 13-token row with an undashed token 5
populates the extended-layout fields taking the five powder-Wilson
statistics from positions 5-9 and main score, spot score and visible
resolution from positions 10-12. -/
theorem parseOutput_layout_selection (ts : List Str) (r0 : ImageDozor)
    (t5 : Str) (h5 : ts.get? 5 = some t5) :
    ((startsWithChar '-' t5 = true ∨ ts.length < 11) →
        parseRowFields ts r0 = applyShort ts r0) ∧
    (¬ (startsWithChar '-' t5 = true ∨ ts.length < 11) →
        parseRowFields ts r0 = applyExt ts r0) ∧
    (∀ (ts2 : List Str) (r2 : ImageDozor),
        (applyShort ts2 r2).powderWilsonScale = r2.powderWilsonScale ∧
        (applyShort ts2 r2).powderWilsonBfactor = r2.powderWilsonBfactor ∧
        (applyShort ts2 r2).powderWilsonResolution = r2.powderWilsonResolution ∧
        (applyShort ts2 r2).powderWilsonCorrelation = r2.powderWilsonCorrelation ∧
        (applyShort ts2 r2).powderWilsonRfactor = r2.powderWilsonRfactor) ∧
    ((parseRowFields row10ex (initImageDozor inpEx 3)).spotsNumOf = some 12 ∧
     (parseRowFields row10ex (initImageDozor inpEx 3)).spotsIntAver = some ⟨552, -1⟩ ∧
     (parseRowFields row10ex (initImageDozor inpEx 3)).spotsRFactor = some ⟨-23, -1⟩ ∧
     (parseRowFields row10ex (initImageDozor inpEx 3)).spotsResolution = some ⟨81, -1⟩ ∧
     (parseRowFields row10ex (initImageDozor inpEx 3)).mainScore = some ⟨85, -2⟩ ∧
     (parseRowFields row10ex (initImageDozor inpEx 3)).spotScore = some ⟨42, -2⟩ ∧
     (parseRowFields row10ex (initImageDozor inpEx 3)).visibleResolution = some ⟨40, 0⟩ ∧
     (parseRowFields row10ex (initImageDozor inpEx 3)).powderWilsonScale = none ∧
     (parseRowFields row10ex (initImageDozor inpEx 3)).powderWilsonBfactor = none ∧
     (parseRowFields row10ex (initImageDozor inpEx 3)).powderWilsonResolution = none ∧
     (parseRowFields row10ex (initImageDozor inpEx 3)).powderWilsonCorrelation = none ∧
     (parseRowFields row10ex (initImageDozor inpEx 3)).powderWilsonRfactor = none) ∧
    ((parseRowFields row13ex (initImageDozor inpEx 5)).spotsNumOf = some 7 ∧
     (parseRowFields row13ex (initImageDozor inpEx 5)).spotsIntAver = some ⟨15, -1⟩ ∧
     (parseRowFields row13ex (initImageDozor inpEx 5)).spotsRfactor = some ⟨25, -1⟩ ∧
     (parseRowFields row13ex (initImageDozor inpEx 5)).spotsResolution = some ⟨35, -1⟩ ∧
     (parseRowFields row13ex (initImageDozor inpEx 5)).powderWilsonScale = some ⟨45, -1⟩ ∧
     (parseRowFields row13ex (initImageDozor inpEx 5)).powderWilsonBfactor = some ⟨55, -1⟩ ∧
     (parseRowFields row13ex (initImageDozor inpEx 5)).powderWilsonResolution = some ⟨65, -1⟩ ∧
     (parseRowFields row13ex (initImageDozor inpEx 5)).powderWilsonCorrelation = some ⟨75, -1⟩ ∧
     (parseRowFields row13ex (initImageDozor inpEx 5)).powderWilsonRfactor = some ⟨85, -1⟩ ∧
     (parseRowFields row13ex (initImageDozor inpEx 5)).mainScore = some ⟨95, -1⟩ ∧
     (parseRowFields row13ex (initImageDozor inpEx 5)).spotScore = some ⟨105, -1⟩ ∧
     (parseRowFields row13ex (initImageDozor inpEx 5)).visibleResolution = some ⟨115, -1⟩) := by
  refine ⟨?_, ?_, ?_, by decide, by decide⟩
  · intro hcond
    unfold parseRowFields
    rw [h5]
    exact if_pos hcond
  · intro hcond
    unfold parseRowFields
    rw [h5]
    exact if_neg hcond
  · intro ts2 r2
    unfold applyShort
    repeat' split
    all_goals exact ⟨rfl, rfl, rfl, rfl, rfl⟩

/-- C5 witness: the layout selection applied to the concrete 10-token
row, whose token 5 starts with a minus sign, selecting the short-layout
assignments. -/
theorem parseOutput_layout_selection_witness :
    parseRowFields row10ex (initImageDozor inpEx 3)
      = applyShort row10ex (initImageDozor inpEx 3) :=
  (parseOutput_layout_selection row10ex (initImageDozor inpEx 3)
      (strL "-1.0") (by decide)).1 (Or.inl (by decide))

/-!
### C6: per-field decoder tolerance
-/

/-- C6 counterexample: in the 11-token short-layout row tsBadC6 exactly
one numeric field token is unparseable, the integer spot-count token x
at position 1; yet the decoded record has the average-intensity field
null as well, even though its own token 2.0 at position 2 parses: the
int conversion failure aborts the remaining assignments of the row
instead of nulling only its own field. -/
theorem parseOutput_field_tolerance_cex :
    (parseRowFields tsBadC6 (initImageDozor inpEx 1)).spotsNumOf = none ∧
    (parseRowFields tsBadC6 (initImageDozor inpEx 1)).spotsIntAver = none ∧
    parseDouble (strL "2.0") = some ⟨20, -1⟩ ∧
    pyInt (strL "x") = none := by
  decide

/-- C6 amended: for every qualifying result row whose integer spot-count
token parses and whose selected layout's field-token positions are
present — a dashed-token-5 short-layout row with positions up to 10, a
10-token short-layout row selected by the token count, or an
extended-layout row with positions up to 12 — every parseDouble-parsed
field is populated independently from its own token, so a single
unparseable parseDouble token yields a record with exactly that field
null and all other fields populated (a 10-token row's visible resolution
staying at its sentinel); a row whose integer spot-count token fails
leaves that field and all following fields of the row null; and each
line's contribution to the decoded list is a function of that line
alone, so decoding of subsequent rows is unaffected. -/
theorem parseOutput_field_tolerance :
    (∀ (ts : List Str) (r0 : ImageDozor) (t1 t2 t3 t4 t5 t8 t9 t10 : Str)
        (n : ℤ),
      ts.get? 1 = some t1 → ts.get? 2 = some t2 → ts.get? 3 = some t3 →
      ts.get? 4 = some t4 → ts.get? 5 = some t5 → ts.get? 8 = some t8 →
      ts.get? 9 = some t9 → ts.get? 10 = some t10 →
      startsWithChar '-' t5 = true → pyInt t1 = some n →
      ((parseRowFields ts r0).spotsNumOf = some n ∧
       (parseRowFields ts r0).spotsIntAver = parseDouble t2 ∧
       (parseRowFields ts r0).spotsRFactor = parseDouble t3 ∧
       (parseRowFields ts r0).spotsResolution = parseDouble t4 ∧
       (parseRowFields ts r0).mainScore = parseDouble t8 ∧
       (parseRowFields ts r0).spotScore = parseDouble t9 ∧
       (parseRowFields ts r0).visibleResolution = parseDouble t10)) ∧
    (∀ (ts : List Str) (r0 : ImageDozor)
        (t1 t2 t3 t4 t5 t6 t7 t8 t9 t10 t11 t12 : Str) (n : ℤ),
      ts.get? 1 = some t1 → ts.get? 2 = some t2 → ts.get? 3 = some t3 →
      ts.get? 4 = some t4 → ts.get? 5 = some t5 → ts.get? 6 = some t6 →
      ts.get? 7 = some t7 → ts.get? 8 = some t8 → ts.get? 9 = some t9 →
      ts.get? 10 = some t10 → ts.get? 11 = some t11 → ts.get? 12 = some t12 →
      startsWithChar '-' t5 = false → pyInt t1 = some n →
      ((parseRowFields ts r0).spotsNumOf = some n ∧
       (parseRowFields ts r0).spotsIntAver = parseDouble t2 ∧
       (parseRowFields ts r0).spotsRfactor = parseDouble t3 ∧
       (parseRowFields ts r0).spotsResolution = parseDouble t4 ∧
       (parseRowFields ts r0).powderWilsonScale = parseDouble t5 ∧
       (parseRowFields ts r0).powderWilsonBfactor = parseDouble t6 ∧
       (parseRowFields ts r0).powderWilsonResolution = parseDouble t7 ∧
       (parseRowFields ts r0).powderWilsonCorrelation = parseDouble t8 ∧
       (parseRowFields ts r0).powderWilsonRfactor = parseDouble t9 ∧
       (parseRowFields ts r0).mainScore = parseDouble t10 ∧
       (parseRowFields ts r0).spotScore = parseDouble t11 ∧
       (parseRowFields ts r0).visibleResolution = parseDouble t12)) ∧
    (∀ (ts : List Str) (r0 : ImageDozor) (t1 t2 t3 t4 t5 t8 t9 : Str)
        (n : ℤ),
      ts.get? 1 = some t1 → ts.get? 2 = some t2 → ts.get? 3 = some t3 →
      ts.get? 4 = some t4 → ts.get? 5 = some t5 → ts.get? 8 = some t8 →
      ts.get? 9 = some t9 → ts.length = 10 → pyInt t1 = some n →
      ((parseRowFields ts r0).spotsNumOf = some n ∧
       (parseRowFields ts r0).spotsIntAver = parseDouble t2 ∧
       (parseRowFields ts r0).spotsRFactor = parseDouble t3 ∧
       (parseRowFields ts r0).spotsResolution = parseDouble t4 ∧
       (parseRowFields ts r0).mainScore = parseDouble t8 ∧
       (parseRowFields ts r0).spotScore = parseDouble t9 ∧
       (parseRowFields ts r0).visibleResolution = r0.visibleResolution)) ∧
    (∀ (ts : List Str) (r0 : ImageDozor) (t1 : Str),
      ts.get? 1 = some t1 → pyInt t1 = none →
      applyShort ts r0 = r0 ∧ applyExt ts r0 = r0) ∧
    (∀ (inp : DozorInData) (st : DozorResult) (line : Str) (st2 : DozorResult),
      processLine inp st line = some st2 →
      st2.imageDozor = st.imageDozor ++ (lineRecord inp line).toList) := by
  refine ⟨?_, ?_, ?_, ?_, ?_⟩
  · intro ts r0 t1 t2 t3 t4 t5 t8 t9 t10 n h1 h2 h3 h4 h5 h8 h9 h10 hdash hn
    have hshort : parseRowFields ts r0 = applyShort ts r0 := by
      unfold parseRowFields
      rw [h5]
      exact if_pos (Or.inl hdash)
    rw [hshort]
    unfold applyShort
    simp only [List.get?_eq_getElem?] at h1 h2 h3 h4 h8 h9 h10
    simp [h1, h2, h3, h4, h8, h9, h10, hn]
  · intro ts r0 t1 t2 t3 t4 t5 t6 t7 t8 t9 t10 t11 t12 n
      h1 h2 h3 h4 h5 h6 h7 h8 h9 h10 h11 h12 hdash hn
    have hlen : ¬ ts.length < 11 := by
      intro hl
      rw [List.get?_eq_none.mpr (by omega)] at h12
      exact absurd h12 (by simp)
    have hext : parseRowFields ts r0 = applyExt ts r0 := by
      unfold parseRowFields
      rw [h5]
      refine if_neg ?_
      rintro (hd | hl)
      · rw [hdash] at hd; exact absurd hd (by decide)
      · exact hlen hl
    rw [hext]
    unfold applyExt
    simp only [List.get?_eq_getElem?] at h1 h2 h3 h4 h5 h6 h7 h8 h9 h10 h11 h12
    simp [h1, h2, h3, h4, h5, h6, h7, h8, h9, h10, h11, h12, hn]
  · intro ts r0 t1 t2 t3 t4 t5 t8 t9 n h1 h2 h3 h4 h5 h8 h9 hlen hn
    have hshort : parseRowFields ts r0 = applyShort ts r0 := by
      unfold parseRowFields
      rw [h5]
      exact if_pos (Or.inr (by omega))
    have h10 : ts.get? 10 = none := List.get?_eq_none.mpr (by omega)
    rw [hshort]
    unfold applyShort
    simp only [List.get?_eq_getElem?] at h1 h2 h3 h4 h8 h9 h10
    simp [h1, h2, h3, h4, h8, h9, h10, hn]
  · intro ts r0 t1 h1 hn
    constructor
    · unfold applyShort
      simp only [h1, hn]
    · unfold applyExt
      simp only [h1, hn]
  · intro inp st line st2 hps
    unfold processLine at hps
    unfold lineRecord
    cases htok : tokenizeLine line with
    | none => rw [htok] at hps; exact absurd hps (by simp)
    | some ts =>
      rw [htok] at hps
      dsimp only at hps ⊢
      by_cases hq : rowQualifies ts = true
      · rw [if_pos hq] at hps
        rw [if_pos hq]
        obtain rfl := Option.some_injective _ hps
        rfl
      · rw [if_neg hq] at hps
        rw [if_neg hq]
        by_cases hh : startsWithChar 'h' line = true
        · rw [if_pos hh] at hps
          cases hget : (splitOnChar '=' line).get? 1 with
          | none => rw [hget] at hps; exact absurd hps (by simp)
          | some seg =>
            rw [hget] at hps
            dsimp only at hps
            cases hhead : (wsSplit seg).head? with
            | none => rw [hhead] at hps; exact absurd hps (by simp)
            | some v =>
              rw [hhead] at hps
              obtain rfl := Option.some_injective _ hps
              simp
        · rw [if_neg hh] at hps
          obtain rfl := Option.some_injective _ hps
          simp

/-- C6 witness: the tolerance theorem applied to the concrete
short-layout row tsTolEx and the concrete extended-layout row
tsTolExtEx, each with exactly one unparseable parseDouble token: in both
layouts the bad field is exactly the (failed) parse of its own token,
and a neighbouring field is populated from its own token. -/
theorem parseOutput_field_tolerance_witness :
    (parseRowFields tsTolEx (initImageDozor inpEx 1)).spotsIntAver
        = parseDouble (strL "x") ∧
      parseDouble (strL "x") = none ∧
      (parseRowFields tsTolEx (initImageDozor inpEx 1)).spotsResolution
        = parseDouble (strL "4.0") ∧
      parseDouble (strL "4.0") = some ⟨40, -1⟩ ∧
      (parseRowFields tsTolExtEx (initImageDozor inpEx 2)).powderWilsonBfactor
        = parseDouble (strL "x") ∧
      (parseRowFields tsTolExtEx (initImageDozor inpEx 2)).mainScore
        = parseDouble (strL "9.5") ∧
      parseDouble (strL "9.5") = some ⟨95, -1⟩ := by
  have h := (parseOutput_field_tolerance).1 tsTolEx (initImageDozor inpEx 1)
    (strL "12") (strL "x") (strL "3.0") (strL "4.0") (strL "-5.0")
    (strL "8.0") (strL "9.0") (strL "10.0") 12
    rfl rfl rfl rfl rfl rfl rfl rfl (by decide) (by decide)
  have hE := (parseOutput_field_tolerance).2.1 tsTolExtEx (initImageDozor inpEx 2)
    (strL "9") (strL "1.5") (strL "2.5") (strL "3.5") (strL "4.5")
    (strL "x") (strL "6.5") (strL "7.5") (strL "8.5") (strL "9.5")
    (strL "10.5") (strL "11.5") 9
    rfl rfl rfl rfl rfl rfl rfl rfl rfl rfl rfl rfl (by decide) (by decide)
  exact ⟨h.2.1, by decide, h.2.2.2.1, by decide,
    hE.2.2.2.2.2.1, hE.2.2.2.2.2.2.2.2.2.1, by decide⟩

/-!
### C7: totality of parseOutput over malformed logs
-/

/-- C7 counterexample: parseOutput is not total over arbitrary log text:
on a log whose seventh line is the single letter h — a line beginning
with h but containing no equals sign — the half-dose-time handling
raises an IndexError (modelled as none) instead of returning a record
list. -/
theorem parseOutput_total_cex :
    parseOutputModel inpEx badLogEx = none := by
  decide

theorem processLines_total (inp : DozorInData) (lines : List Str)
    (h : ∀ line ∈ lines, (tokenizeLine line).isSome = true ∧
      (startsWithChar 'h' line = true → wellFormedHalfLine line = true)) :
    ∀ st, (processLines inp lines st).isSome = true := by
  induction lines with
  | nil => intro st; rfl
  | cons l rest ih =>
    intro st
    obtain ⟨htokl, hhalf⟩ := h l (List.mem_cons_self l rest)
    have hrest : ∀ line ∈ rest, (tokenizeLine line).isSome = true ∧
        (startsWithChar 'h' line = true → wellFormedHalfLine line = true) :=
      fun line hline => h line (List.mem_cons_of_mem l hline)
    unfold processLines
    obtain ⟨ts, hts⟩ := Option.isSome_iff_exists.mp htokl
    have hstep : (processLine inp st l).isSome = true := by
      unfold processLine
      rw [hts]
      dsimp only
      by_cases hq : rowQualifies ts = true
      · rw [if_pos hq]; rfl
      · rw [if_neg hq]
        by_cases hh : startsWithChar 'h' l = true
        · rw [if_pos hh]
          have hw := hhalf hh
          unfold wellFormedHalfLine at hw
          cases hget : (splitOnChar '=' l).get? 1 with
          | none => rw [hget] at hw; exact absurd hw (by simp)
          | some seg =>
            rw [hget] at hw
            dsimp only at hw ⊢
            cases hhead : (wsSplit seg).head? with
            | none =>
              rw [List.head?_eq_none_iff] at hhead
              rw [hhead] at hw
              exact absurd hw (by simp)
            | some v => rfl
        · rw [if_neg hh]; rfl
    obtain ⟨st2, hst2⟩ := Option.isSome_iff_exists.mp hstep
    rw [hst2]
    exact ih hrest st2

/-- C7 amended: parseOutput is total — it returns a record list and
raises nothing — for every log text, however malformed, in which every
line after the six-line banner tokenizes (no unbalanced quote) and every
such line beginning with h contains an equals sign followed by at least
one whitespace-delimited token; a line beginning with h without an
equals sign, however, makes parseOutput raise an IndexError, so
unconditional totality fails. -/
theorem parseOutput_total_of_wellformed (inp : DozorInData) (output : Str)
    (h : ∀ line ∈ (splitOnChar lfChar output).drop 6,
      (tokenizeLine line).isSome = true ∧
      (startsWithChar 'h' line = true → wellFormedHalfLine line = true)) :
    (parseOutputModel inp output).isSome = true := by
  unfold parseOutputModel
  exact processLines_total inp _ h _

/-- C7 witness: totality evaluated on the concrete log goodLogEx, whose
post-banner lines are a result row, a well-formed half-dose-time line
and an ignored line. -/
theorem parseOutput_total_of_wellformed_witness :
    (parseOutputModel inpEx goodLogEx).isSome = true :=
  parseOutput_total_of_wellformed inpEx goodLogEx (by decide)

/-!
### C8: plot-parser nesting
-/

/-- C8: decoding the concrete mtv plot description — one dollar block
whose quoted name is Plot1, one subplot Series A with the single
attribute line percent linelabel equals quoted A, and the two data rows
1.0 2.0 and 2.0 3.0 — yields exactly one plot dictionary named Plot1
containing exactly one subplot named Series A with linelabel A,
xValues 1.0, 2.0 and yValues 2.0, 3.0. -/
theorem generatePngPlots_nesting :
    generatePngPlotsParse mtvLinesEx =
      some [⟨strL "Plot1", [],
        [⟨strL "Series A", [(strL "linelabel", strL "A")],
          [⟨10, -1⟩, ⟨20, -1⟩], [⟨20, -1⟩, ⟨30, -1⟩]⟩]⟩] := by
  decide

/-!
### C9: partial failure in the batch aggregation of ControlDozor.run
-/

theorem controlDozorRunLoop_foldl (exec : List ℕ → Option (List ImageDozor))
    (batches : List (List ℕ)) (acc : List QualityIndicators) :
    batches.foldl
        (fun acc b =>
          match exec b with
          | none => acc
          | some recs => acc ++ recs.map toQualityIndicators) acc
      = acc ++ (batches.filterMap
          (fun b => (exec b).map (fun recs => recs.map toQualityIndicators))).flatten := by
  induction batches generalizing acc with
  | nil => simp
  | cons b rest ih =>
    rw [List.foldl_cons, List.filterMap_cons]
    cases hb : exec b with
    | none => simp [ih]
    | some recs => simp [ih]

/-- C9: the aggregation loop of ControlDozor.run collects exactly the
records of the successful batches, in batch submission order, appending
nothing for a failed batch; in particular, in a three-batch run whose
second batch fails, the aggregate is the first batch's records followed
by the third batch's, and the loop is a total function — a single batch
failure neither raises nor stops the remaining batches. -/
theorem controlDozor_partial_failure :
    (∀ (exec : List ℕ → Option (List ImageDozor)) (batches : List (List ℕ)),
      controlDozorRunLoop exec batches
        = (batches.filterMap
            (fun b => (exec b).map (fun recs => recs.map toQualityIndicators))).flatten) ∧
    (∀ (exec : List ℕ → Option (List ImageDozor)) (b1 b2 b3 : List ℕ)
        (r1 r3 : List ImageDozor),
      exec b1 = some r1 → exec b2 = none → exec b3 = some r3 →
      controlDozorRunLoop exec [b1, b2, b3]
        = r1.map toQualityIndicators ++ r3.map toQualityIndicators) := by
  constructor
  · intro exec batches
    unfold controlDozorRunLoop
    rw [controlDozorRunLoop_foldl]
    simp
  · intro exec b1 b2 b3 r1 r3 h1 h2 h3
    unfold controlDozorRunLoop
    rw [controlDozorRunLoop_foldl]
    simp [List.filterMap_cons, h1, h2, h3]

/-- C9 witness: the three-batch partial-failure law evaluated on the
concrete execution outcome execEx, whose middle batch fails. -/
theorem controlDozor_partial_failure_witness :
    controlDozorRunLoop execEx [[1, 2], [3, 4], [5]]
      = recsEx1.map toQualityIndicators ++ recsEx3.map toQualityIndicators :=
  (controlDozor_partial_failure).2 execEx [1, 2] [3, 4] [5] recsEx1 recsEx3
    rfl rfl rfl

/-!
### C10: concurrent dispatch with submission-order aggregation
-/

theorem foldl_threadWrite (outc : ℕ → Option α) (events : List ℕ)
    (st : ℕ → Option (Option α)) (i : ℕ) :
    (events.foldl (threadWrite outc) st) i
      = if i ∈ events then some (outc i) else st i := by
  induction events generalizing st with
  | nil => simp
  | cons e rest ih =>
    rw [List.foldl_cons, ih]
    by_cases hie : i ∈ rest
    · simp [hie]
    · by_cases heq : i = e
      · subst heq
        simp [hie, threadWrite]
      · simp [hie, heq, threadWrite]

theorem joinAndGather_eq (store : ℕ → Option (Option α)) (outc : ℕ → Option α)
    (l : List ℕ) (acc : List α)
    (h : ∀ i ∈ l, store i = some (outc i)) :
    joinAndGather store l acc = some (acc ++ l.filterMap outc) := by
  induction l generalizing acc with
  | nil => simp [joinAndGather]
  | cons i rest ih =>
    have hi := h i (List.mem_cons_self i rest)
    have hrest : ∀ j ∈ rest, store j = some (outc j) :=
      fun j hj => h j (List.mem_cons_of_mem i hj)
    unfold joinAndGather
    rw [hi, List.filterMap_cons]
    cases houtc : outc i with
    | none => dsimp only; rw [ih _ hrest]
    | some d => dsimp only; rw [ih _ hrest]; simp

/-- C10: in the per-sub-wedge concurrent dispatch of
ControlIndexing.runControlDozor, whenever every dispatched unit
eventually completes — in an arbitrary completion order given by the
events list — the join loop joins all units before aggregating and
returns exactly the successful outcomes in submission order 0..n-1,
independent of the completion order, with failed units skipped and
never cancelling their siblings. -/
theorem runControlDozor_submission_order {α : Type} (outc : ℕ → Option α)
    (events : List ℕ) (n : ℕ) (hall : ∀ i ∈ List.range n, i ∈ events) :
    runControlDozorModel outc events n = some ((List.range n).filterMap outc) := by
  unfold runControlDozorModel runThreadsSchedule
  rw [joinAndGather_eq _ outc _ _ ?_]
  · rw [List.nil_append]
  · intro i hi
    rw [foldl_threadWrite]
    exact if_pos (hall i hi)

/-- C10 witness: the submission-order law evaluated with three units,
the middle one failing, under the scrambled completion order 2, 0, 1:
the aggregate lists unit 0's then unit 2's output. -/
theorem runControlDozor_submission_order_witness :
    runControlDozorModel outcEx [2, 0, 1] 3 = some [0, 20] :=
  (runControlDozor_submission_order outcEx [2, 0, 1] 3 (by decide)).trans
    (by decide)
